import Mathlib

/-!
Verification of the age-of-money core of kevinburke/ynab-go.

The definitions below are a shallow embedding of the `ynab-age-of-money`
command (src/unnamed/part_004; the older copy src/ynab-age-of-money/main.go
differs only in presentation and in lacking the tie-breaking sorts) together
with `Account.CashBacked` from client.go.

Modelling conventions:
- Money amounts are `Int` milliunits, exactly as the Go `int64` values
  (no overflow is modelled: the Go code performs no arithmetic that can
  overflow for realistic ledger sizes, and the spec prescribes exact
  integer arithmetic).
- Dates (`Transaction.date`, `ScheduledTransaction.dateNext`) are `Int`
  days since an epoch.  The Go `Date` type is a calendar day at midnight
  UTC, so a difference of two dates in hours is exactly `24 * (d1 - d2)`
  and `math.Round(hours/24)` recovers the day difference exactly; the
  float arithmetic the Go code performs on such values is exact.  The
  "now" instant used by the threshold report is kept at hour granularity.
- `math.Round` (round half away from zero) on an exact quotient of
  integer hours by 24 is embedded as `roundDiv24`.
- Go panics (unknown account ids, out-of-range bucket indexing, negative
  spending) are embedded as `none`; mutation of a transaction's `Amount`
  through a pointer is embedded by returning the updated transaction.
- Presentation-only fields (account name, payee name, memo) and the
  rendering code are omitted; records carry exactly the numeric/date data
  the program computes for each output row.
-/

/-- An account, from `client.go` (`Account`): the fields consulted by the
age-of-money logic. `accountType` embeds the Go `Type` field. -/
structure Account where
  accountType : String
  onBudget : Bool
deriving Repr, DecidableEq

/-- The predicate `Account.CashBacked` from client.go:
`a.Type == "cash" || a.Type == "savings" || a.Type == "checking"`. -/
def CashBacked (a : Account) : Bool :=
  a.accountType == "cash" || a.accountType == "savings" || a.accountType == "checking"

/-- A transaction (`ynab.Transaction`): the fields consulted by the
age-of-money logic.  `transferAccountID` embeds the Go `types.NullString`
(`none` = not valid). -/
structure Transaction where
  accountID : String
  amount : Int
  transferAccountID : Option String
  date : Int
deriving Repr, DecidableEq

/-- A scheduled transaction (`ynab.ScheduledTransaction`): the fields
consulted by the projection code. -/
structure ScheduledTransaction where
  accountID : String
  amount : Int
  transferAccountID : Option String
  dateNext : Int
deriving Repr, DecidableEq

/-- The account map built in `main` (`accountMap[account.ID] = account`),
embedded as an association list keyed by account id. -/
abbrev AccountMap := List (String × Account)

/-- Decision core of `isOutflow` (part_004 lines 74-104), after the
account and transfer-account lookups have succeeded.  Returns the boolean
result together with the (possibly amount-negated) transaction, embedding
the in-place mutation `tx.Amount = -1 * tx.Amount`. -/
def isOutflowResolved (txnAccount : Account) (transferAccount : Option Account)
    (tx : Transaction) (scheduled : Bool) : Bool × Transaction :=
  if CashBacked txnAccount then
    match transferAccount with
    | none => (decide (tx.amount < 0), tx)
    | some ta =>
      if ta.onBudget = false ∨ (scheduled = true ∧ CashBacked ta = false) then
        (decide (tx.amount < 0), tx)
      else
        (false, tx)
  else
    match transferAccount with
    | none => (false, tx)
    | some ta =>
      if CashBacked ta = false then (false, tx)
      else if 0 ≤ tx.amount then (true, { tx with amount := -tx.amount })
      else (false, tx)

/-- The classifier `isOutflow` (part_004 lines 58-105).  `none` embeds the two panics on
failed account lookups. -/
def isOutflow (accountMap : AccountMap) (tx : Transaction) (scheduled : Bool) :
    Option (Bool × Transaction) :=
  match accountMap.lookup tx.accountID with
  | none => none
  | some txnAccount =>
    if txnAccount.onBudget = false then some (false, tx)
    else
      match tx.transferAccountID with
      | some transferID =>
        match accountMap.lookup transferID with
        | none => none
        | some transferAccount =>
          some (isOutflowResolved txnAccount (some transferAccount) tx scheduled)
      | none => some (isOutflowResolved txnAccount none tx scheduled)

/-- Embeds `math.Round (h / 24)` for an exact integer number of hours `h`:
round half away from zero. -/
def roundDiv24 (h : Int) : Int :=
  if 0 ≤ h then (h + 12) / 24 else -((-h + 12) / 24)

/-- Embeds `int(math.Round(spend.Sub(bucket).Hours() / 24))` for two midnight-UTC
dates given in days: the hour difference is exactly `24 * (spendDate - bucketDate)`. -/
def ageDays (spendDate bucketDate : Int) : Int :=
  roundDiv24 (24 * spendDate - 24 * bucketDate)

/-- Comparator for the historical spending sort (part_004 lines 241-248),
as the non-strict order "comes no later than": date ascending, ties broken
by larger amount first. -/
def spendingLE (a b : Transaction) : Bool :=
  if a.date = b.date then decide (b.amount ≤ a.amount) else decide (a.date < b.date)

/-- The `sort.Slice` call on spending (part_004 lines 241-248), embedded as
a merge sort with the same ordering. -/
def sortSpending (l : List Transaction) : List Transaction :=
  l.mergeSort spendingLE

/-- Comparator for the scheduled-transaction sort (part_004 lines 162-169):
`dateNext` ascending, ties broken by larger amount first. -/
def scheduledLE (a b : ScheduledTransaction) : Bool :=
  if a.dateNext = b.dateNext then decide (b.amount ≤ a.amount) else decide (a.dateNext < b.dateNext)

/-- The `sort.Slice` call on scheduled transactions (part_004 lines 162-169). -/
def sortScheduled (l : List ScheduledTransaction) : List ScheduledTransaction :=
  l.mergeSort scheduledLE

/-- The inner consumption loop of the historical allocator (part_004 lines
274-285): `for amount > 0 { if amount < buckets[idx].Amount-bucketSpend
{...} else {...} }`.  `none` embeds the index-out-of-range panic on
`buckets[currentBucketIdx]` when the cursor runs past the end. -/
def consumeLoop (buckets : List Transaction) (amount : Int) (idx : Nat) (spend : Int) :
    Option (Nat × Int) :=
  if amount ≤ 0 then some (idx, spend)
  else
    match h : buckets[idx]? with
    | none => none
    | some b =>
      if amount < b.amount - spend then some (idx, spend + amount)
      else consumeLoop buckets (amount - (b.amount - spend)) (idx + 1) 0
termination_by buckets.length - idx
decreasing_by
  have : idx < buckets.length := (List.getElem?_eq_some.mp h).1
  omega

/-- One realized-spend output row (part_004 lines 286-298): age of money,
the earning bucket's date, the spend date, and the displayed (positive)
amount `-1 * spending[i].Amount`. -/
structure SpendRecord where
  age : Int
  earnedDate : Int
  spentDate : Int
  amount : Int
deriving Repr, DecidableEq

/-- The historical allocation loop of `main` (part_004 lines 261-299):
walks the sorted spending list, consuming buckets FIFO and emitting one
record per nonzero spending event.  `none` embeds the panics (negative
"spending", cursor past the end of `buckets`). -/
def allocateSpending (buckets : List Transaction) :
    List Transaction → Nat → Int → Option (List SpendRecord)
  | [], _, _ => some []
  | s :: rest, idx, spend =>
    let amount := -s.amount
    if amount = 0 then allocateSpending buckets rest idx spend
    else if amount < 0 then none
    else
      match consumeLoop buckets amount idx spend with
      | none => none
      | some (idx', spend') =>
        match buckets[idx']? with
        | none => none
        | some b =>
          match allocateSpending buckets rest idx' spend' with
          | none => none
          | some recs =>
            some ({ age := ageDays s.date b.date, earnedDate := b.date,
                    spentDate := s.date, amount := -s.amount } :: recs)

/-- The consumption loop of the projection path (part_004 lines 377-391):
identical to `consumeLoop` except that running past the end of the bucket
list is a `break`, not a panic, so the function is total and returns the
final cursor. -/
def consumeLoopB (buckets : List Transaction) (amount : Int) (idx : Nat) (spend : Int) :
    Nat × Int :=
  if amount ≤ 0 then (idx, spend)
  else
    match h : buckets[idx]? with
    | none => (idx, spend)
    | some b =>
      if amount < b.amount - spend then (idx, spend + amount)
      else consumeLoopB buckets (amount - (b.amount - spend)) (idx + 1) 0
termination_by buckets.length - idx
decreasing_by
  have : idx < buckets.length := (List.getElem?_eq_some.mp h).1
  omega

/-- The scheduled-income branch of the projection loop (part_004 lines
342-368): given the synthetic transaction of a non-outflow scheduled
transaction, returns the updated bucket list (a bucket appended, with the
amount negated in the off-budget-transfer case, or unchanged).  `none`
embeds the two lookup panics. -/
def incomeAppend (accountMap : AccountMap) (txnIsh : Transaction)
    (buckets : List Transaction) : Option (List Transaction) :=
  match accountMap.lookup txnIsh.accountID with
  | none => none
  | some txnAccount =>
    match txnIsh.transferAccountID with
    | some transferID =>
      match accountMap.lookup transferID with
      | none => none
      | some transferAccount =>
        if CashBacked txnAccount = false ∧ txnIsh.amount < 0 ∧ transferAccount.onBudget = true then
          some (buckets ++ [{ txnIsh with amount := -txnIsh.amount }])
        else if CashBacked txnAccount = true ∧ transferAccount.onBudget = true then
          some buckets
        else if CashBacked txnAccount = false then
          some buckets
        else
          some (buckets ++ [txnIsh])
    | none =>
      if CashBacked txnAccount = false then some buckets
      else some (buckets ++ [txnIsh])

/-- The synthetic transaction built from a scheduled transaction
(part_004 lines 330-337, the "lazy type hack"). -/
def schedToTxn (st : ScheduledTransaction) : Transaction :=
  { accountID := st.accountID, amount := st.amount,
    transferAccountID := st.transferAccountID, date := st.dateNext }

/-- One projected-spend output row (part_004 lines 392-404): either an aged
projection, or the "not earned yet" row carrying the projected date and the
displayed (positive) amount `-1 * txnIsh.Amount`. -/
inductive ProjRecord where
  | aged (age : Int) (earnedDate : Int) (spendDate : Int) (amount : Int)
  | notEarnedYet (spendDate : Int) (amount : Int)
deriving Repr, DecidableEq

/-- The projection loop of `main` (part_004 lines 326-405): classifies each
scheduled transaction with `scheduled = true`, either (not an outflow)
optionally appends scheduled income to the bucket list, or (outflow)
continues the allocator state, emitting an aged row, or a single
"not earned yet" row followed by `break`.  `none` embeds the panics. -/
def projectScheduled (accountMap : AccountMap) (includeScheduledIncome : Bool) :
    List ScheduledTransaction → List Transaction → Nat → Int → Option (List ProjRecord)
  | [], _, _, _ => some []
  | st :: rest, buckets, idx, spend =>
    match isOutflow accountMap (schedToTxn st) true with
    | none => none
    | some (false, txnIsh) =>
      if includeScheduledIncome = false then
        projectScheduled accountMap includeScheduledIncome rest buckets idx spend
      else
        match incomeAppend accountMap txnIsh buckets with
        | none => none
        | some buckets' =>
          projectScheduled accountMap includeScheduledIncome rest buckets' idx spend
    | some (true, txnIsh) =>
      let amount := -txnIsh.amount
      if amount = 0 then
        projectScheduled accountMap includeScheduledIncome rest buckets idx spend
      else if amount < 0 then none
      else
        let r := consumeLoopB buckets amount idx spend
        if buckets.length ≤ r.1 then
          some [ProjRecord.notEarnedYet st.dateNext (-txnIsh.amount)]
        else
          match buckets[r.1]? with
          | none => none
          | some b =>
            match projectScheduled accountMap includeScheduledIncome rest buckets r.1 r.2 with
            | none => none
            | some recs =>
              some (ProjRecord.aged (ageDays st.dateNext b.date) b.date st.dateNext
                      (-txnIsh.amount) :: recs)

/-- One upcoming-threshold output row (part_004 line 315): the age the
bucket's money would have if spent today, the bucket's date, and the
cumulative threshold after this bucket. -/
structure ThresholdRecord where
  ageToday : Int
  bucketDate : Int
  threshold : Int
deriving Repr, DecidableEq

/-- The upcoming-threshold loop of `main` (part_004 lines 306-316), with
`now` the current instant in hours (for `time.Since`). -/
def thresholdLoop (now : Int) (buckets : List Transaction) (startIdx : Nat)
    (bucketSpend : Int) (i : Nat) (threshold : Int) : List ThresholdRecord :=
  if i - startIdx < 25 ∧ threshold ≤ 20000 * 1000 then
    match h : buckets[i]? with
    | none => []
    | some b =>
      let t := if i = startIdx then threshold + b.amount - bucketSpend
               else threshold + b.amount
      { ageToday := roundDiv24 (now - 24 * b.date) - 1, bucketDate := b.date, threshold := t } ::
        thresholdLoop now buckets startIdx bucketSpend (i + 1) t
  else []
termination_by buckets.length - i
decreasing_by
  have : i < buckets.length := (List.getElem?_eq_some.mp h).1
  omega

/-- The whole threshold report (part_004 lines 306-316), started at the
allocator's final cursor with accumulator 0. -/
def upcomingThresholds (now : Int) (buckets : List Transaction) (idx : Nat)
    (spend : Int) : List ThresholdRecord :=
  thresholdLoop now buckets idx spend idx 0

/-- Spec-side description of the threshold data (spec sections 4.4 and 6):
remaining bucket capacities from the cursor on, the first reduced by
`bucketSpentSoFar`, paired with bucket dates. -/
def capacities (buckets : List Transaction) (idx : Nat) (spend : Int) :
    List (Int × Int) :=
  match buckets.drop idx with
  | [] => []
  | b :: rest => (b.amount - spend, b.date) :: rest.map (fun r => (r.amount, r.date))

/-- Spec-side accumulation of the threshold sequence: walk the capacity
list in order, stopping after 25 entries or once the running total exceeds
20,000,000 milliunits (the boundary behaviour the code actually has: it
continues while the total is still ≤ 20,000,000). -/
def accumulateThresholds (now : Int) :
    List (Int × Int) → Nat → Int → List ThresholdRecord
  | [], _, _ => []
  | (c, d) :: rest, count, total =>
    if count < 25 ∧ total ≤ 20000 * 1000 then
      { ageToday := roundDiv24 (now - 24 * d) - 1, bucketDate := d, threshold := total + c } ::
        accumulateThresholds now rest (count + 1) (total + c)
    else []

/-- The spec-side threshold sequence as a whole. -/
def upcomingFromSpec (now : Int) (buckets : List Transaction) (idx : Nat)
    (spend : Int) : List ThresholdRecord :=
  accumulateThresholds now (capacities buckets idx spend) 0 0

/-- Money still available to the allocator from cursor position
`(idx, spend)` on: the remaining bucket amounts less what is already spent
from the current bucket. -/
def avail (buckets : List Transaction) (idx : Nat) (spend : Int) : Int :=
  ((buckets.drop idx).map Transaction.amount).sum - spend

/-- Cursor well-formedness maintained by the allocator: the partial spend
is nonnegative, strictly below the current bucket's amount, and zero once
the cursor is past the end. -/
def BucketInv (buckets : List Transaction) (idx : Nat) (spend : Int) : Prop :=
  0 ≤ spend ∧ (∀ b, buckets[idx]? = some b → spend < b.amount) ∧
    (buckets.length ≤ idx → spend = 0)


/-! ## Helper lemmas about `isOutflow` -/

/-- On-budget non-cash-backed account, resolved cash-backed transfer target,
nonnegative amount: `isOutflow` takes the credit-card-payment branch
(part_004 lines 98-103), negating the stored amount. -/
lemma isOutflow_creditPayment (am : AccountMap) (tx : Transaction) (scheduled : Bool)
    (acc ta : Account) (tid : String)
    (h1 : am.lookup tx.accountID = some acc) (h2 : acc.onBudget = true)
    (h3 : CashBacked acc = false) (h4 : tx.transferAccountID = some tid)
    (h5 : am.lookup tid = some ta) (h6 : CashBacked ta = true)
    (h7 : 0 ≤ tx.amount) :
    isOutflow am tx scheduled = some (true, { tx with amount := -tx.amount }) := by
  simp [isOutflow, h1, h2, h4, h5, isOutflowResolved, h3, h6, h7]

/-- Same shape but with a negative amount: control falls through to the
final `return false` (part_004 line 104), with no mutation. -/
lemma isOutflow_creditNegative (am : AccountMap) (tx : Transaction) (scheduled : Bool)
    (acc ta : Account) (tid : String)
    (h1 : am.lookup tx.accountID = some acc) (h2 : acc.onBudget = true)
    (h3 : CashBacked acc = false) (h4 : tx.transferAccountID = some tid)
    (h5 : am.lookup tid = some ta) (h6 : CashBacked ta = true)
    (h7 : tx.amount < 0) :
    isOutflow am tx scheduled = some (false, tx) := by
  have h7' : ¬(0 ≤ tx.amount) := by omega
  simp [isOutflow, h1, h2, h4, h5, isOutflowResolved, h3, h6, h7']

/-- C4: Under Policy A, a transaction on an on-budget non-cash-backed
(credit-like) account whose resolved transfer target is cash-backed and
whose amount is ≥ 0 is classified as an outflow with the amount negated. -/
theorem credit_payment_is_outflow :
    ∀ (am : AccountMap) (tx : Transaction) (scheduled : Bool) (acc ta : Account) (tid : String),
      am.lookup tx.accountID = some acc →
      acc.onBudget = true →
      CashBacked acc = false →
      tx.transferAccountID = some tid →
      am.lookup tid = some ta →
      CashBacked ta = true →
      0 ≤ tx.amount →
      isOutflow am tx scheduled = some (true, { tx with amount := -tx.amount }) :=
  fun am tx s acc ta tid h1 h2 h3 h4 h5 h6 h7 =>
    isOutflow_creditPayment am tx s acc ta tid h1 h2 h3 h4 h5 h6 h7

/-- Witness for C4, spec Scenario 4: a `creditCard` account transferring
+15000 to a `checking` account is an outflow of -15000. -/
theorem credit_payment_is_outflow_witness :
    isOutflow [("cc", Account.mk "creditCard" true), ("chk", Account.mk "checking" true)]
        (Transaction.mk "cc" 15000 (some "chk") 0) false =
      some (true, Transaction.mk "cc" (-15000) (some "chk") 0) := by
  have h := credit_payment_is_outflow
    [("cc", Account.mk "creditCard" true), ("chk", Account.mk "checking" true)]
    (Transaction.mk "cc" 15000 (some "chk") 0) false
    (Account.mk "creditCard" true) (Account.mk "checking" true) "chk"
    (by decide) rfl (by decide) rfl (by decide) (by decide) (by decide)
  exact h.trans (by decide)

/-- C5: Under Policy A, on a cash-backed on-budget account with no
transfer, or an off-budget transfer target, or (scheduled and a
non-cash-backed transfer target), the transaction is an outflow iff its
amount is < 0, with no mutation. -/
theorem cash_spending_outflow_iff_negative :
    ∀ (am : AccountMap) (tx : Transaction) (scheduled : Bool) (acc : Account),
      am.lookup tx.accountID = some acc →
      acc.onBudget = true →
      CashBacked acc = true →
      (tx.transferAccountID = none ∨
        ∃ tid ta, tx.transferAccountID = some tid ∧ am.lookup tid = some ta ∧
          (ta.onBudget = false ∨ (scheduled = true ∧ CashBacked ta = false))) →
      isOutflow am tx scheduled = some (decide (tx.amount < 0), tx) := by
  intro am tx s acc h1 h2 h3 h4
  rcases h4 with h4 | ⟨tid, ta, ht, hl, hcond⟩
  · simp [isOutflow, h1, h2, h4, isOutflowResolved, h3]
  · simp only [isOutflow, h1, h2, Bool.false_eq_true, if_false, ht, hl,
      isOutflowResolved, h3, if_true]
    rw [if_pos hcond]
    simp

/-- Witness for C5, spec Scenario 3 (in the scheduled context, where the
creditCard transfer target triggers the third disjunct): a `cash` account
with a transfer to an on-budget `creditCard` account and amount -30000 is
an outflow. -/
theorem cash_spending_outflow_iff_negative_witness :
    isOutflow [("csh", Account.mk "cash" true), ("cc", Account.mk "creditCard" true)]
        (Transaction.mk "csh" (-30000) (some "cc") 0) true =
      some (true, Transaction.mk "csh" (-30000) (some "cc") 0) := by
  have h := cash_spending_outflow_iff_negative
    [("csh", Account.mk "cash" true), ("cc", Account.mk "creditCard" true)]
    (Transaction.mk "csh" (-30000) (some "cc") 0) true (Account.mk "cash" true)
    (by decide) rfl (by decide)
    (Or.inr ⟨"cc", Account.mk "creditCard" true, rfl, by decide, Or.inr ⟨rfl, by decide⟩⟩)
  exact h.trans (by decide)

/-- C10: Policy A's classifier mutates: on the credit-card-payment branch
it stores the negated amount, so a second classification of the same
(now negative-amount) transaction returns `false`. -/
theorem isOutflow_mutation_not_idempotent :
    ∀ (am : AccountMap) (tx : Transaction) (s s' : Bool) (acc ta : Account) (tid : String),
      am.lookup tx.accountID = some acc →
      acc.onBudget = true →
      CashBacked acc = false →
      tx.transferAccountID = some tid →
      am.lookup tid = some ta →
      CashBacked ta = true →
      0 ≤ tx.amount → tx.amount ≠ 0 →
      isOutflow am tx s = some (true, { tx with amount := -tx.amount }) ∧
      isOutflow am { tx with amount := -tx.amount } s' =
        some (false, { tx with amount := -tx.amount }) := by
  intro am tx s s' acc ta tid h1 h2 h3 h4 h5 h6 h7 h8
  refine ⟨isOutflow_creditPayment am tx s acc ta tid h1 h2 h3 h4 h5 h6 h7, ?_⟩
  exact isOutflow_creditNegative am { tx with amount := -tx.amount } s' acc ta tid
    h1 h2 h3 h4 h5 h6 (by simp; omega)

/-- Witness for C10: classifying the +15000 credit-card payment twice
yields `true` then `false`. -/
theorem isOutflow_mutation_not_idempotent_witness :
    isOutflow [("cc2", Account.mk "creditCard" true), ("sv", Account.mk "savings" true)]
        (Transaction.mk "cc2" 15000 (some "sv") 7) true =
      some (true, Transaction.mk "cc2" (-15000) (some "sv") 7) ∧
    isOutflow [("cc2", Account.mk "creditCard" true), ("sv", Account.mk "savings" true)]
        (Transaction.mk "cc2" (-15000) (some "sv") 7) true =
      some (false, Transaction.mk "cc2" (-15000) (some "sv") 7) := by
  have h := isOutflow_mutation_not_idempotent
    [("cc2", Account.mk "creditCard" true), ("sv", Account.mk "savings" true)]
    (Transaction.mk "cc2" 15000 (some "sv") 7) true true
    (Account.mk "creditCard" true) (Account.mk "savings" true) "sv"
    (by decide) rfl (by decide) rfl (by decide) (by decide) (by decide) (by decide)
  exact ⟨h.1.trans (by decide), by simpa using h.2⟩

/-! ## "Not earned yet" in the projection -/

/-- If the head scheduled transaction is classified as an outflow whose
consumption runs the cursor past the end of the bucket list, the projection
emits the single "not earned yet" row and breaks out of the loop: the
result is that singleton, whatever scheduled transactions follow. -/
lemma projectScheduled_ney (am : AccountMap) (inc : Bool) (st : ScheduledTransaction)
    (rest : List ScheduledTransaction) (buckets : List Transaction) (idx : Nat)
    (spend : Int) (t : Transaction)
    (hout : isOutflow am (schedToTxn st) true = some (true, t))
    (hneg : t.amount < 0)
    (hexh : buckets.length ≤ (consumeLoopB buckets (-t.amount) idx spend).1) :
    projectScheduled am inc (st :: rest) buckets idx spend =
      some [ProjRecord.notEarnedYet st.dateNext (-t.amount)] := by
  have h0 : ¬(-t.amount = 0) := by omega
  have h1 : ¬(-t.amount < 0) := by omega
  simp only [projectScheduled, hout, h0, if_false, h1]
  rw [if_pos hexh]

/-- C3: A scheduled (projected) outflow that exhausts the remaining
buckets produces a "not earned yet" record carrying the displayed amount
and the projected date as ordinary output data (`some`, never the `none`
that embeds an error/panic). -/
theorem scheduled_overspend_not_earned_yet :
    ∀ (am : AccountMap) (inc : Bool) (st : ScheduledTransaction)
      (buckets : List Transaction) (idx : Nat) (spend : Int) (t : Transaction),
      isOutflow am (schedToTxn st) true = some (true, t) →
      t.amount < 0 →
      buckets.length ≤ (consumeLoopB buckets (-t.amount) idx spend).1 →
      projectScheduled am inc [st] buckets idx spend =
        some [ProjRecord.notEarnedYet st.dateNext (-t.amount)] :=
  fun am inc st buckets idx spend t hout hneg hexh =>
    projectScheduled_ney am inc st [] buckets idx spend t hout hneg hexh

unseal consumeLoopB in
/-- Witness for C3, spec Scenario 5: one remaining bucket of 10000 and a
scheduled outflow of 25000 yield the "not earned yet" row. -/
theorem scheduled_overspend_not_earned_yet_witness :
    projectScheduled [("chk", Account.mk "checking" true)] false
        [ScheduledTransaction.mk "chk" (-25000) none 100]
        [Transaction.mk "x" 10000 none 0] 0 0 =
      some [ProjRecord.notEarnedYet 100 25000] := by
  have h := scheduled_overspend_not_earned_yet [("chk", Account.mk "checking" true)] false
    (ScheduledTransaction.mk "chk" (-25000) none 100)
    [Transaction.mk "x" 10000 none 0] 0 0
    (Transaction.mk "chk" (-25000) none 100)
    (by decide) (by decide) (by decide)
  exact h.trans (by decide)

/-- C9: Once one scheduled outflow exhausts the buckets, the projection
emits its "not earned yet" record and stops entirely: the output is that
single record no matter what scheduled transactions (outflows or potential
scheduled income) follow, so none of them is allocated, appended as a
bucket, or reported. -/
theorem projection_stops_after_not_earned_yet :
    ∀ (am : AccountMap) (inc : Bool) (st : ScheduledTransaction)
      (rest : List ScheduledTransaction) (buckets : List Transaction)
      (idx : Nat) (spend : Int) (t : Transaction),
      isOutflow am (schedToTxn st) true = some (true, t) →
      t.amount < 0 →
      buckets.length ≤ (consumeLoopB buckets (-t.amount) idx spend).1 →
      projectScheduled am inc (st :: rest) buckets idx spend =
        some [ProjRecord.notEarnedYet st.dateNext (-t.amount)] :=
  fun am inc st rest buckets idx spend t hout hneg hexh =>
    projectScheduled_ney am inc st rest buckets idx spend t hout hneg hexh

unseal consumeLoopB in
/-- Witness for C9: after the exhausting outflow, a further scheduled
outflow and a further scheduled income are both ignored — the output is
still the single "not earned yet" row. -/
theorem projection_stops_after_not_earned_yet_witness :
    projectScheduled [("chk9", Account.mk "checking" true)] true
        [ScheduledTransaction.mk "chk9" (-25000) none 100,
         ScheduledTransaction.mk "chk9" (-500) none 110,
         ScheduledTransaction.mk "chk9" 9000 none 120]
        [Transaction.mk "x" 10000 none 0] 0 0 =
      some [ProjRecord.notEarnedYet 100 25000] := by
  have h := projection_stops_after_not_earned_yet [("chk9", Account.mk "checking" true)] true
    (ScheduledTransaction.mk "chk9" (-25000) none 100)
    [ScheduledTransaction.mk "chk9" (-500) none 110,
     ScheduledTransaction.mk "chk9" 9000 none 120]
    [Transaction.mk "x" 10000 none 0] 0 0
    (Transaction.mk "chk9" (-25000) none 100)
    (by decide) (by decide) (by decide)
  exact h.trans (by decide)

/-! ## Which bucket's date provides the age of a spend -/

/-- C1 (amended): the age emitted for a historical spending event is
computed from the date of the bucket at the allocator's *final cursor
position* after consuming the event.  That is the bucket from which the
last unit was drawn whenever the event leaves that bucket partially
consumed; when the event's amount exactly exhausts the bucket supplying
its last unit, the cursor has already advanced, so the age is taken from
the *following* bucket's date (and the run aborts if no such bucket
exists). -/
theorem age_from_final_cursor :
    ∀ (buckets : List Transaction) (e : Transaction) (rest : List Transaction)
      (idx idx' : Nat) (spend spend' : Int) (b : Transaction),
      e.amount < 0 →
      consumeLoop buckets (-e.amount) idx spend = some (idx', spend') →
      buckets[idx']? = some b →
      allocateSpending buckets (e :: rest) idx spend =
        (allocateSpending buckets rest idx' spend').map
          (fun recs => { age := ageDays e.date b.date, earnedDate := b.date,
                         spentDate := e.date, amount := -e.amount } :: recs) := by
  intro buckets e rest idx idx' spend spend' b hneg hcons hb
  have h0 : ¬(-e.amount = 0) := by omega
  have h1 : ¬(-e.amount < 0) := by omega
  simp only [allocateSpending, h0, if_false, h1, hcons, hb]
  cases allocateSpending buckets rest idx' spend' <;> simp

unseal consumeLoop in
/-- Witness for C1 (amended), spec Scenario 2: a 70000 spend on day 9
over buckets {50000, day 0} and {50000, day 4} ends with cursor 1 and
bucketSpentSoFar 20000, and its age comes from the day-4 bucket. -/
theorem age_from_final_cursor_witness :
    allocateSpending [Transaction.mk "i" 50000 none 0, Transaction.mk "i" 50000 none 4]
        [Transaction.mk "s" (-70000) none 9] 0 0 =
      (allocateSpending [Transaction.mk "i" 50000 none 0, Transaction.mk "i" 50000 none 4]
          [] 1 20000).map
        (fun recs => { age := ageDays 9 4, earnedDate := 4,
                       spentDate := 9, amount := 70000 } :: recs) := by
  have h := age_from_final_cursor
    [Transaction.mk "i" 50000 none 0, Transaction.mk "i" 50000 none 4]
    (Transaction.mk "s" (-70000) none 9) [] 0 1 0 20000
    (Transaction.mk "i" 50000 none 4)
    (by decide) (by decide) (by decide)
  exact h.trans (by decide)

unseal consumeLoop in
/-- Counterexample to C1 as stated: the spend `{100000, day 9}` draws from
the buckets `{50000, day 0}` and `{50000, day 4}` — its last unit comes
from the day-4 bucket, so the claim demands age `ageDays 9 4 = 5` — but
because the amount exactly exhausts that bucket the cursor advances to the
third bucket `{50000, day 8}` and the emitted age is 1, computed from
day 8. -/
theorem exact_exhaustion_age_from_next_bucket :
    allocateSpending
        [Transaction.mk "i" 50000 none 0, Transaction.mk "i" 50000 none 4,
         Transaction.mk "i" 50000 none 8]
        [Transaction.mk "s" (-100000) none 9] 0 0 =
      some [{ age := 1, earnedDate := 8, spentDate := 9, amount := 100000 }] ∧
    ageDays 9 4 = 5 := by
  exact ⟨by decide, by decide⟩

/-! ## The two sorts -/

lemma spendingLE_iff (a b : Transaction) :
    spendingLE a b = true ↔
      (a.date < b.date ∨ (a.date = b.date ∧ b.amount ≤ a.amount)) := by
  simp only [spendingLE]
  by_cases h : a.date = b.date <;> simp [h]

lemma spendingLE_total (a b : Transaction) :
    (spendingLE a b || spendingLE b a) = true := by
  simp only [Bool.or_eq_true, spendingLE_iff]
  omega

lemma spendingLE_trans (a b c : Transaction) :
    spendingLE a b = true → spendingLE b c = true → spendingLE a c = true := by
  simp only [spendingLE_iff]
  omega

lemma scheduledLE_iff (a b : ScheduledTransaction) :
    scheduledLE a b = true ↔
      (a.dateNext < b.dateNext ∨ (a.dateNext = b.dateNext ∧ b.amount ≤ a.amount)) := by
  simp only [scheduledLE]
  by_cases h : a.dateNext = b.dateNext <;> simp [h]

lemma scheduledLE_total (a b : ScheduledTransaction) :
    (scheduledLE a b || scheduledLE b a) = true := by
  simp only [Bool.or_eq_true, scheduledLE_iff]
  omega

lemma scheduledLE_trans (a b c : ScheduledTransaction) :
    scheduledLE a b = true → scheduledLE b c = true → scheduledLE a c = true := by
  simp only [scheduledLE_iff]
  omega

/-- C6: the spending sequence is sorted (as a permutation of the input)
by date ascending, ties broken by larger amount first, before allocation;
the scheduled sequence is sorted by `dateNext` ascending with the same
tie-break before projection. -/
theorem sorted_before_allocation_and_projection :
    ∀ (sp : List Transaction) (sch : List ScheduledTransaction),
      (sortSpending sp).Perm sp ∧
      (sortSpending sp).Pairwise
        (fun a b => a.date < b.date ∨ (a.date = b.date ∧ b.amount ≤ a.amount)) ∧
      (sortScheduled sch).Perm sch ∧
      (sortScheduled sch).Pairwise
        (fun a b => a.dateNext < b.dateNext ∨ (a.dateNext = b.dateNext ∧ b.amount ≤ a.amount)) := by
  intro sp sch
  refine ⟨List.mergeSort_perm sp spendingLE, ?_,
          List.mergeSort_perm sch scheduledLE, ?_⟩
  · exact (List.sorted_mergeSort spendingLE_trans spendingLE_total sp).imp
      (fun h => (spendingLE_iff _ _).mp h)
  · exact (List.sorted_mergeSort scheduledLE_trans scheduledLE_total sch).imp
      (fun h => (scheduledLE_iff _ _).mp h)

/-! ## Overspending aborts the historical allocation -/

lemma avail_cons (buckets : List Transaction) (idx : Nat) (spend : Int)
    (b : Transaction) (hb : buckets[idx]? = some b) :
    avail buckets idx spend = (b.amount - spend) + avail buckets (idx + 1) 0 := by
  obtain ⟨h, hbe⟩ := List.getElem?_eq_some.mp hb
  unfold avail
  rw [List.drop_eq_getElem_cons h, hbe]
  simp
  ring

/-- Case analysis on a successful run of the consumption loop. -/
lemma consumeLoop_elim (buckets : List Transaction) (amount : Int) (idx : Nat) (spend : Int)
    (idx' : Nat) (spend' : Int)
    (hc : consumeLoop buckets amount idx spend = some (idx', spend'))
    (motive : Prop)
    (h1 : amount ≤ 0 → idx' = idx → spend' = spend → motive)
    (h2 : ∀ b, ¬amount ≤ 0 → buckets[idx]? = some b → amount < b.amount - spend →
      idx' = idx → spend' = spend + amount → motive)
    (h3 : ∀ b, ¬amount ≤ 0 → buckets[idx]? = some b → ¬amount < b.amount - spend →
      consumeLoop buckets (amount - (b.amount - spend)) (idx + 1) 0 = some (idx', spend') →
      motive) : motive := by
  unfold consumeLoop at hc
  by_cases h : amount ≤ 0
  · rw [if_pos h] at hc
    simp only [Option.some.injEq, Prod.mk.injEq] at hc
    exact h1 h hc.1.symm hc.2.symm
  · rw [if_neg h] at hc
    split at hc
    · exact absurd hc (by simp)
    · next b hb =>
      by_cases hlt : amount < b.amount - spend
      · rw [if_pos hlt] at hc
        simp only [Option.some.injEq, Prod.mk.injEq] at hc
        exact h2 b h hb hlt hc.1.symm hc.2.symm
      · rw [if_neg hlt] at hc
        exact h3 b h hb hlt hc

/-- The consumption loop conserves money: on success, available money has
decreased by exactly the consumed amount. -/
lemma consumeLoop_avail (buckets : List Transaction) :
    ∀ (amount : Int) (idx : Nat) (spend : Int),
      0 ≤ amount →
      ∀ idx' spend', consumeLoop buckets amount idx spend = some (idx', spend') →
        avail buckets idx' spend' = avail buckets idx spend - amount := by
  intro amount idx spend
  induction amount, idx, spend using consumeLoop.induct buckets with
  | case1 amount idx spend h =>
    intro h0 idx' spend' hc
    refine consumeLoop_elim buckets amount idx spend idx' spend' hc _ ?_ ?_ ?_
    · rintro _ rfl rfl; omega
    · intro b hh _ _ _ _; exact absurd h hh
    · intro b hh _ _ _; exact absurd h hh
  | case2 amount idx spend h hnone =>
    intro h0 idx' spend' hc
    refine consumeLoop_elim buckets amount idx spend idx' spend' hc _ ?_ ?_ ?_
    · intro hle _ _; exact absurd hle h
    · intro b _ hb _ _ _; rw [hnone] at hb; exact absurd hb (by simp)
    · intro b _ hb _ _; rw [hnone] at hb; exact absurd hb (by simp)
  | case3 amount idx spend h b hb hlt =>
    intro h0 idx' spend' hc
    refine consumeLoop_elim buckets amount idx spend idx' spend' hc _ ?_ ?_ ?_
    · intro hle _ _; exact absurd hle h
    · rintro b' _ hb' _ rfl rfl
      simp only [avail]
      omega
    · intro b' _ hb' hlt' _
      rw [hb] at hb'
      simp only [Option.some.injEq] at hb'
      subst hb'
      exact absurd hlt hlt'
  | case4 amount idx spend h b hb hlt ih =>
    intro h0 idx' spend' hc
    refine consumeLoop_elim buckets amount idx spend idx' spend' hc _ ?_ ?_ ?_
    · intro hle _ _; exact absurd hle h
    · intro b' _ hb' hlt' _ _
      rw [hb] at hb'
      simp only [Option.some.injEq] at hb'
      subst hb'
      exact absurd hlt' hlt
    · intro b' _ hb' _ hrec
      rw [hb] at hb'
      simp only [Option.some.injEq] at hb'
      subst hb'
      have hge : 0 ≤ amount - (b.amount - spend) := by omega
      have := ih hge idx' spend' hrec
      have hstep := avail_cons buckets idx spend b hb
      omega

/-- The consumption loop preserves cursor well-formedness when all bucket
amounts are positive. -/
lemma consumeLoop_inv (buckets : List Transaction)
    (hpos : ∀ b ∈ buckets, 0 < b.amount) :
    ∀ (amount : Int) (idx : Nat) (spend : Int),
      BucketInv buckets idx spend →
      ∀ idx' spend', consumeLoop buckets amount idx spend = some (idx', spend') →
        BucketInv buckets idx' spend' := by
  intro amount idx spend
  induction amount, idx, spend using consumeLoop.induct buckets with
  | case1 amount idx spend h =>
    intro hinv idx' spend' hc
    refine consumeLoop_elim buckets amount idx spend idx' spend' hc _ ?_ ?_ ?_
    · rintro _ rfl rfl; exact hinv
    · intro b hh _ _ _ _; exact absurd h hh
    · intro b hh _ _ _; exact absurd h hh
  | case2 amount idx spend h hnone =>
    intro hinv idx' spend' hc
    refine consumeLoop_elim buckets amount idx spend idx' spend' hc _ ?_ ?_ ?_
    · intro hle _ _; exact absurd hle h
    · intro b _ hb _ _ _; rw [hnone] at hb; exact absurd hb (by simp)
    · intro b _ hb _ _; rw [hnone] at hb; exact absurd hb (by simp)
  | case3 amount idx spend h b hb hlt =>
    intro hinv idx' spend' hc
    refine consumeLoop_elim buckets amount idx spend idx' spend' hc _ ?_ ?_ ?_
    · intro hle _ _; exact absurd hle h
    · rintro b' _ hb' hlt' rfl rfl
      rw [hb] at hb'
      simp only [Option.some.injEq] at hb'
      subst hb'
      obtain ⟨hs0, hs1, hs2⟩ := hinv
      refine ⟨by omega, ?_, ?_⟩
      · intro b2 hb2
        rw [hb] at hb2
        simp only [Option.some.injEq] at hb2
        subst hb2
        omega
      · intro hlen
        have := (List.getElem?_eq_some.mp hb).1
        omega
    · intro b' _ hb' hlt' _
      rw [hb] at hb'
      simp only [Option.some.injEq] at hb'
      subst hb'
      exact absurd hlt hlt'
  | case4 amount idx spend h b hb hlt ih =>
    intro hinv idx' spend' hc
    refine consumeLoop_elim buckets amount idx spend idx' spend' hc _ ?_ ?_ ?_
    · intro hle _ _; exact absurd hle h
    · intro b' _ hb' hlt' _ _
      rw [hb] at hb'
      simp only [Option.some.injEq] at hb'
      subst hb'
      exact absurd hlt' hlt
    · intro b' _ hb' _ hrec
      rw [hb] at hb'
      simp only [Option.some.injEq] at hb'
      subst hb'
      have hnext : BucketInv buckets (idx + 1) 0 := by
        refine ⟨le_refl 0, ?_, fun _ => rfl⟩
        intro b2 hb2
        obtain ⟨hlt2, hbe⟩ := List.getElem?_eq_some.mp hb2
        have : b2 ∈ buckets := hbe ▸ List.getElem_mem hlt2
        exact hpos b2 this
      exact ih hnext idx' spend' hrec

/-- With positive bucket amounts, a well-formed cursor never owes money. -/
lemma avail_nonneg (buckets : List Transaction)
    (hpos : ∀ b ∈ buckets, 0 < b.amount)
    (idx : Nat) (spend : Int) (hinv : BucketInv buckets idx spend) :
    0 ≤ avail buckets idx spend := by
  have hsum : 0 ≤ ((buckets.drop (idx + 1)).map Transaction.amount).sum := by
    refine List.sum_nonneg ?_
    intro x hx
    obtain ⟨t, ht, rfl⟩ := List.mem_map.mp hx
    have : t ∈ buckets := List.mem_of_mem_drop ht
    exact le_of_lt (hpos t this)
  cases hb : buckets[idx]? with
  | none =>
    have hlen : buckets.length ≤ idx := by
      by_contra hcon
      push_neg at hcon
      rw [List.getElem?_eq_getElem hcon] at hb
      exact absurd hb (by simp)
    have hdrop : buckets.drop idx = [] := List.drop_eq_nil_of_le hlen
    have hzero := hinv.2.2 hlen
    simp [avail, hdrop, hzero]
  | some b =>
    have hlt := hinv.2.1 b hb
    have : 0 ≤ avail buckets (idx + 1) 0 := by
      simp only [avail]
      omega
    have hstep := avail_cons buckets idx spend b hb
    omega

/-- A successful historical allocation consumes no more than was available
at the starting cursor. -/
lemma allocate_le_avail (buckets : List Transaction)
    (hpos : ∀ b ∈ buckets, 0 < b.amount) :
    ∀ (spending : List Transaction) (idx : Nat) (spend : Int) (recs : List SpendRecord),
      (∀ s ∈ spending, s.amount ≤ 0) →
      BucketInv buckets idx spend →
      allocateSpending buckets spending idx spend = some recs →
      (spending.map (fun s => -s.amount)).sum ≤ avail buckets idx spend := by
  intro spending
  induction spending with
  | nil =>
    intro idx spend recs _ hinv _
    simpa using avail_nonneg buckets hpos idx spend hinv
  | cons s rest ih =>
    intro idx spend recs hneg hinv halloc
    have hsneg : s.amount ≤ 0 := hneg s (List.mem_cons_self s rest)
    have hrestneg : ∀ t ∈ rest, t.amount ≤ 0 :=
      fun t ht => hneg t (List.mem_cons_of_mem s ht)
    simp only [allocateSpending] at halloc
    by_cases h0 : -s.amount = 0
    · rw [if_pos h0] at halloc
      have := ih idx spend recs hrestneg hinv halloc
      simp only [List.map_cons, List.sum_cons]
      omega
    · rw [if_neg h0] at halloc
      have h1 : ¬(-s.amount < 0) := by omega
      rw [if_neg h1] at halloc
      cases hc : consumeLoop buckets (-s.amount) idx spend with
      | none => rw [hc] at halloc; exact absurd halloc (by simp)
      | some p =>
        obtain ⟨idx', spend'⟩ := p
        rw [hc] at halloc
        simp only [] at halloc
        cases hb : buckets[idx']? with
        | none => rw [hb] at halloc; exact absurd halloc (by simp)
        | some b =>
          rw [hb] at halloc
          cases hr : allocateSpending buckets rest idx' spend' with
          | none => rw [hr] at halloc; exact absurd halloc (by simp)
          | some recs' =>
            have hinv' := consumeLoop_inv buckets hpos (-s.amount) idx spend hinv idx' spend' hc
            have havail := consumeLoop_avail buckets (-s.amount) idx spend (by omega) idx' spend' hc
            have hrest := ih idx' spend' recs' hrestneg hinv' hr
            simp only [List.map_cons, List.sum_cons]
            omega

/-- C2: if cumulative historical spending exceeds the total amount of all
buckets, the allocation fails (the embedded index-out-of-range panic — the
`DataInconsistency` abort) rather than returning any output. -/
theorem overspend_aborts :
    ∀ (buckets spending : List Transaction),
      (∀ b ∈ buckets, 0 < b.amount) →
      (∀ s ∈ spending, s.amount ≤ 0) →
      (buckets.map Transaction.amount).sum < (spending.map (fun s => -s.amount)).sum →
      allocateSpending buckets spending 0 0 = none := by
  intro buckets spending hpos hneg hover
  cases h : allocateSpending buckets spending 0 0 with
  | none => rfl
  | some recs =>
    have hinv : BucketInv buckets 0 0 := by
      refine ⟨le_refl 0, ?_, fun _ => rfl⟩
      intro b hb
      obtain ⟨hlt, hbe⟩ := List.getElem?_eq_some.mp hb
      exact hpos b (hbe ▸ List.getElem_mem hlt)
    have hle := allocate_le_avail buckets hpos spending 0 0 recs hneg hinv h
    simp only [avail, List.drop_zero] at hle
    omega

unseal consumeLoop in
/-- Witness for C2: a single bucket of 10 against a spend of 25 aborts. -/
theorem overspend_aborts_witness :
    allocateSpending [Transaction.mk "i" 10 none 0]
      [Transaction.mk "s" (-25) none 1] 0 0 = none :=
  overspend_aborts [Transaction.mk "i" 10 none 0]
    [Transaction.mk "s" (-25) none 1] (by decide) (by decide) (by decide)

/-! ## Which non-outflow scheduled transactions become buckets -/

/-- C7 (amended): with scheduled income opted in, a non-outflow scheduled
transaction is appended to the bucket sequence exactly when (a) it has a
transfer, its own account is not cash-backed, its amount is negative and
the resolved transfer target is on-budget — appended with the amount
negated — or (b) its own account is cash-backed and it either has no
transfer or its transfer target is off-budget — appended as-is; every
other case leaves the bucket sequence unchanged.  (The code checks neither
that the appending account is on-budget nor that a transfer target is
cash-backed, which the original claim required.) -/
theorem income_append_characterization :
    ∀ (am : AccountMap) (tx : Transaction) (buckets : List Transaction) (acc : Account),
      am.lookup tx.accountID = some acc →
      ((tx.transferAccountID = none →
          incomeAppend am tx buckets =
            some (if CashBacked acc then buckets ++ [tx] else buckets)) ∧
        (∀ tid ta, tx.transferAccountID = some tid → am.lookup tid = some ta →
          incomeAppend am tx buckets =
            some (if CashBacked acc = false ∧ tx.amount < 0 ∧ ta.onBudget = true then
                    buckets ++ [{ tx with amount := -tx.amount }]
                  else if CashBacked acc = true ∧ ta.onBudget = false then
                    buckets ++ [tx]
                  else buckets))) := by
  intro am tx buckets acc hacc
  constructor
  · intro hnone
    simp only [incomeAppend, hacc, hnone]
    by_cases hc : CashBacked acc <;> simp [hc]
  · intro tid ta htid hta
    simp only [incomeAppend, hacc, htid, hta]
    cases hc : CashBacked acc <;> cases ho : ta.onBudget <;>
      by_cases ha : tx.amount < 0 <;> simp [ha]

/-- Witness for C7 (amended): a scheduled transfer of -8000 on an
on-budget creditCard account into an on-budget checking account is
appended as a bucket of +8000. -/
theorem income_append_characterization_witness :
    incomeAppend [("cc7", Account.mk "creditCard" true), ("chk7", Account.mk "checking" true)]
        (Transaction.mk "cc7" (-8000) (some "chk7") 30) [] =
      some [Transaction.mk "cc7" 8000 (some "chk7") 30] := by
  have h := (income_append_characterization
    [("cc7", Account.mk "creditCard" true), ("chk7", Account.mk "checking" true)]
    (Transaction.mk "cc7" (-8000) (some "chk7") 30) [] (Account.mk "creditCard" true)
    (by decide)).2 "chk7" (Account.mk "checking" true) rfl (by decide)
  exact h.trans (by decide)

unseal consumeLoopB in
/-- Counterexample to C7 as stated: a scheduled credit of +5000 on an
*off-budget* checking account with *no transfer* is neither "a transfer
from an off-budget account into an on-budget cash-backed account" nor "a
direct non-transfer credit into a cash-backed on-budget account", so the
claim says it must be skipped; the code appends it as a bucket.  The
effect is observable: a later scheduled outflow of 4000 consumes that
bucket and is reported with an age (rather than "not earned yet", which
an empty bucket list would force). -/
theorem income_append_beyond_claim :
    ([(("offchk" : String), Account.mk "checking" false),
      ("onchk", Account.mk "checking" true)] : AccountMap).lookup "offchk" =
        some (Account.mk "checking" false) ∧
    (schedToTxn (ScheduledTransaction.mk "offchk" 5000 none 50)).transferAccountID = none ∧
    isOutflow [("offchk", Account.mk "checking" false), ("onchk", Account.mk "checking" true)]
        (schedToTxn (ScheduledTransaction.mk "offchk" 5000 none 50)) true =
      some (false, schedToTxn (ScheduledTransaction.mk "offchk" 5000 none 50)) ∧
    incomeAppend [("offchk", Account.mk "checking" false), ("onchk", Account.mk "checking" true)]
        (schedToTxn (ScheduledTransaction.mk "offchk" 5000 none 50)) [] =
      some [schedToTxn (ScheduledTransaction.mk "offchk" 5000 none 50)] ∧
    projectScheduled [("offchk", Account.mk "checking" false), ("onchk", Account.mk "checking" true)]
        true
        [ScheduledTransaction.mk "offchk" 5000 none 50,
         ScheduledTransaction.mk "onchk" (-4000) none 60] [] 0 0 =
      some [ProjRecord.aged 10 50 60 4000] := by
  refine ⟨by decide, rfl, by decide, by decide, by decide⟩

/-! ## The upcoming-threshold report -/

lemma capacities_getElem? (buckets : List Transaction) (idx : Nat) (spend : Int) (j : Nat) :
    (capacities buckets idx spend)[j]? =
      (buckets[idx + j]?).map
        (fun t => (if j = 0 then t.amount - spend else t.amount, t.date)) := by
  unfold capacities
  cases hd : buckets.drop idx with
  | nil =>
    have hlen : buckets.length - idx = 0 := by
      have := congrArg List.length hd
      simpa using this
    have hnone : buckets[idx + j]? = none := by
      apply List.getElem?_eq_none
      omega
    simp [hnone]
  | cons hb tl =>
    have hhb : buckets[idx]? = some hb := by
      have h0 := List.getElem?_drop buckets idx 0
      rw [hd] at h0
      simpa using h0.symm
    have htl : tl = buckets.drop (idx + 1) := by
      have h1 := List.drop_drop 1 idx buckets
      rw [hd] at h1
      simpa using h1
    cases j with
    | zero =>
      rw [Nat.add_zero, hhb]
      simp
    | succ jj =>
      simp only [List.getElem?_cons_succ, List.getElem?_map]
      rw [htl, List.getElem?_drop]
      have hidx : idx + 1 + jj = idx + (jj + 1) := by omega
      rw [hidx]
      cases buckets[idx + (jj + 1)]? <;> simp

lemma capacities_length (buckets : List Transaction) (idx : Nat) (spend : Int) :
    (capacities buckets idx spend).length = buckets.length - idx := by
  unfold capacities
  cases hd : buckets.drop idx with
  | nil =>
    have h := congrArg List.length hd
    simp only [List.length_drop, List.length_nil] at h
    simp [h]
  | cons hb tl =>
    have h := congrArg List.length hd
    simp only [List.length_drop, List.length_cons] at h
    simp [h]

lemma thresholdLoop_eq_accumulate (now : Int) (buckets : List Transaction) (idx : Nat)
    (spend : Int) :
    ∀ (n j : Nat) (t : Int), buckets.length - (idx + j) = n →
      thresholdLoop now buckets idx spend (idx + j) t =
        accumulateThresholds now ((capacities buckets idx spend).drop j) j t := by
  intro n
  induction n with
  | zero =>
    intro j t hn
    have hnone : buckets[idx + j]? = none := by
      apply List.getElem?_eq_none
      omega
    have hdrop : (capacities buckets idx spend).drop j = [] := by
      apply List.drop_eq_nil_of_le
      rw [capacities_length]
      omega
    rw [hdrop]
    unfold thresholdLoop
    split
    · split
      · rfl
      · next b hbeq =>
        rw [hnone] at hbeq
        exact absurd hbeq (by simp)
    · rfl
  | succ n ihn =>
    intro j t hn
    have hj : idx + j < buckets.length := by omega
    have hb : buckets[idx + j]? = some buckets[idx + j] := List.getElem?_eq_getElem hj
    set b := buckets[idx + j] with hbdef
    have hjlen : j < (capacities buckets idx spend).length := by
      rw [capacities_length]
      omega
    have hcap : (capacities buckets idx spend)[j] =
        (if j = 0 then b.amount - spend else b.amount, b.date) := by
      have h1 := List.getElem?_eq_getElem hjlen
      have h2 := capacities_getElem? buckets idx spend j
      rw [h1, hb] at h2
      simpa using h2
    have hdrop : (capacities buckets idx spend).drop j =
        (if j = 0 then b.amount - spend else b.amount, b.date) ::
          (capacities buckets idx spend).drop (j + 1) := by
      rw [List.drop_eq_getElem_cons hjlen, hcap]
    rw [hdrop]
    have ht' : (if idx + j = idx then t + b.amount - spend else t + b.amount) =
        t + (if j = 0 then b.amount - spend else b.amount) := by
      by_cases hj0 : j = 0
      · simp [hj0]
        omega
      · simp [hj0]
    unfold thresholdLoop
    simp only [accumulateThresholds]
    have hsub : idx + j - idx = j := by omega
    by_cases hcond : j < 25 ∧ t ≤ 20000 * 1000
    · rw [if_pos (by omega : idx + j - idx < 25 ∧ t ≤ 20000 * 1000), if_pos hcond]
      split
      · next hbeq =>
        rw [hb] at hbeq
        exact absurd hbeq (by simp)
      · next b2 hbeq =>
        rw [hb] at hbeq
        simp only [Option.some.injEq] at hbeq
        subst hbeq
        simp only [ht']
        congr 1
        have := ihn (j + 1) (t + (if j = 0 then b.amount - spend else b.amount)) (by omega)
        simpa using this
    · rw [if_neg (by omega : ¬(idx + j - idx < 25 ∧ t ≤ 20000 * 1000)), if_neg hcond]

/-- C8 (amended): the upcoming-threshold report equals the spec-side
description — start at the allocator's final cursor, subtract
`bucketSpentSoFar` from the first (partial) bucket's capacity, accumulate
subsequent bucket amounts in order, stop after 25 buckets or once the
cumulative total *exceeds* 20,000,000 milliunits (the loop continues while
the total is still ≤ 20,000,000), and report each entry's
age-if-spent-today as `round(hoursSince(bucket.date)/24) - 1`. -/
theorem upcoming_matches_spec :
    ∀ (now : Int) (buckets : List Transaction) (idx : Nat) (spend : Int),
      upcomingThresholds now buckets idx spend = upcomingFromSpec now buckets idx spend := by
  intro now buckets idx spend
  have h := thresholdLoop_eq_accumulate now buckets idx spend (buckets.length - (idx + 0)) 0 0 rfl
  simpa [upcomingThresholds, upcomingFromSpec] using h

unseal thresholdLoop in
/-- Counterexample to C8 as stated: after the first bucket the cumulative
total *reaches* exactly 20,000,000, so the claimed stopping rule ("once
the cumulative total reaches 20,000,000") allows no further entry; the
code emits a second entry (the loop only stops once the total exceeds
20,000,000). -/
theorem threshold_continues_at_exact_limit :
    upcomingThresholds 240 [Transaction.mk "i" 20000000 none 0, Transaction.mk "i" 5 none 3] 0 0 =
      [ThresholdRecord.mk 9 0 20000000, ThresholdRecord.mk 6 3 20000005] := by decide
